import Mathlib

/-!
Verification development for the linux-firewire-utils transaction engine.

The definitions below are a shallow embedding of the three C source files
`firewire-request.c`, `firewire-phy-command.c` and `lsfirewirephy.c`.
Machine integers (`u32`, `u64`) are modelled as `Nat`; the kernel event
stream read through `poll`/`read` is modelled as a `List` of typed events,
where exhausting the list while the code would still poll corresponds to a
zero-event poll cycle (timeout).  Fatal conditions (`exit(EXIT_FAILURE)`)
are modelled as distinguished outcomes or `Option.none`.
-/

/-! ## Constants from `linux/firewire-constants.h` -/

def RCODE_COMPLETE : Nat := 0
def RCODE_CONFLICT_ERROR : Nat := 4
def RCODE_DATA_ERROR : Nat := 5
def RCODE_TYPE_ERROR : Nat := 6
def RCODE_ADDRESS_ERROR : Nat := 7
def RCODE_SEND_ERROR : Nat := 0x10
def RCODE_CANCELLED : Nat := 0x11
def RCODE_BUSY : Nat := 0x12
def RCODE_GENERATION : Nat := 0x13
def RCODE_NO_ACK : Nat := 0x14

def TCODE_WRITE_QUADLET_REQUEST : Nat := 0
def TCODE_WRITE_BLOCK_REQUEST : Nat := 1
def TCODE_READ_QUADLET_REQUEST : Nat := 4
def TCODE_READ_BLOCK_REQUEST : Nat := 5
def TCODE_LOCK_MASK_SWAP : Nat := 0x11
def TCODE_LOCK_COMPARE_SWAP : Nat := 0x12
def TCODE_LOCK_FETCH_ADD : Nat := 0x13
def TCODE_LOCK_LITTLE_ADD : Nat := 0x14
def TCODE_LOCK_BOUNDED_ADD : Nat := 0x15
def TCODE_LOCK_WRAP_ADD : Nat := 0x16

/-! ## firewire-request.c: events and the response wait loop

`wait_for_response` (firewire-request.c:73-106) polls the device in a loop:
a zero-event poll cycle is fatal (modelled by the event list running out,
result `none`); a `FW_CDEV_EVENT_RESPONSE` event returns; a
`FW_CDEV_EVENT_BUS_RESET` event updates the cached `generation` and loops;
any other event type is ignored and the loop continues. -/

inductive ReqEvent where
  | bus_reset (gen : Nat)
  | response (rcode : Nat) (payload : List Nat)
  | other
deriving DecidableEq

/-- Embedding of `wait_for_response` (firewire-request.c:73-106), threading
the cached `generation` explicitly.  Returns the cached generation at the
time the response arrives, the response rcode, and the unconsumed events;
`none` models the fatal `timeout (no ack)` path. -/
def wait_for_response (gen : Nat) : List ReqEvent → Option (Nat × Nat × List ReqEvent)
  | [] => none
  | ReqEvent.bus_reset g :: es => wait_for_response g es
  | ReqEvent.response rc _ :: es => some (gen, rc, es)
  | ReqEvent.other :: es => wait_for_response gen es

theorem wait_for_response_length {gen : Nat} :
    ∀ {evs : List ReqEvent} {out : Nat × Nat × List ReqEvent},
      wait_for_response gen evs = some out → out.2.2.length < evs.length := by
  intro evs
  induction evs generalizing gen with
  | nil => intro out h; simp [wait_for_response] at h
  | cons e es ih =>
    intro out h
    cases e with
    | bus_reset g =>
      simp only [wait_for_response] at h
      exact Nat.lt_trans (ih h) (Nat.lt_succ_self _)
    | response rc p =>
      simp only [wait_for_response] at h
      cases h
      exact Nat.lt_succ_self _
    | other =>
      simp only [wait_for_response] at h
      exact Nat.lt_trans (ih h) (Nat.lt_succ_self _)

/-- The `do { submit; wait } while (rcode == RCODE_GENERATION)` retry loop
shared verbatim by `do_read` (firewire-request.c:163-178),
`do_write_request` (190-205) and `do_lock_request` (247-259).  Returns the
list of generation values stamped on the successive submissions
(`send_request.generation = generation`) and the final rcode (`none`
models the fatal timeout inside `wait_for_response`). -/
def request_loop (gen : Nat) (events : List ReqEvent) : List Nat × Option Nat :=
  match h : wait_for_response gen events with
  | none => ([gen], none)
  | some (g2, rc, rest) =>
    if rc = RCODE_GENERATION then
      let r := request_loop g2 rest
      (gen :: r.1, r.2)
    else ([gen], some rc)
termination_by events.length
decreasing_by exact wait_for_response_length h

/-- Tcode selection in `do_read` (firewire-request.c:164-167):
quadlet tcode for a 4-byte read at a 4-byte-aligned address. -/
def do_read_tcode (read_length address : Nat) : Nat :=
  if read_length = 4 ∧ address &&& 3 = 0 then TCODE_READ_QUADLET_REQUEST
  else TCODE_READ_BLOCK_REQUEST

/-- Tcode selection in `do_write_request` (firewire-request.c:191-194). -/
def do_write_tcode (data_length address : Nat) : Nat :=
  if data_length = 4 ∧ address &&& 3 = 0 then TCODE_WRITE_QUADLET_REQUEST
  else TCODE_WRITE_BLOCK_REQUEST

/-- One outbound `fw_cdev_send_request` as filled in by the source. -/
structure SendReq where
  tcode : Nat
  offset : Nat
  length : Nat
  generation : Nat
deriving DecidableEq

/-- Embedding of `do_read` (firewire-request.c:158-183): the submission
trace (one `SendReq` per loop iteration) and the final rcode. -/
def do_read (read_length address gen : Nat) (events : List ReqEvent) :
    List SendReq × Option Nat :=
  let r := request_loop gen events
  (r.1.map (fun g =>
    { tcode := do_read_tcode read_length address,
      offset := address, length := read_length, generation := g }), r.2)

/-- Embedding of `do_write_request` (firewire-request.c:185-208). -/
def do_write_request (data_length address gen : Nat) (events : List ReqEvent) :
    List SendReq × Option Nat :=
  let r := request_loop gen events
  (r.1.map (fun g =>
    { tcode := do_write_tcode data_length address,
      offset := address, length := data_length, generation := g }), r.2)

/-! ## firewire-request.c: lock payload encoding -/

/-- Operand validation and payload assembly of `do_lock_request`
(firewire-request.c:220-249): `has_data2` is false exactly for
`TCODE_LOCK_FETCH_ADD` and `TCODE_LOCK_LITTLE_ADD`; operand byte widths
must be 4 or 8 (and equal for dual-operand kinds); the payload is
`data` followed by `data2` (dual) or `data` alone (single), with
`send_request.length` equal to `data.length * 2` or `data.length`. -/
def do_lock_payload (tcode : Nat) (data data2 : List Nat) :
    Except String (List Nat × Nat) :=
  let has_data2 := tcode ≠ TCODE_LOCK_FETCH_ADD ∧ tcode ≠ TCODE_LOCK_LITTLE_ADD
  if (data.length ≠ 4 ∧ data.length ≠ 8) ∨
     (has_data2 ∧ (data2.length ≠ 4 ∧ data2.length ≠ 8)) then
    Except.error "data size must be 32 or 64 bits"
  else if has_data2 ∧ data.length ≠ data2.length then
    Except.error "both data blocks must have the same size"
  else if has_data2 then
    Except.ok (data ++ data2, data.length * 2)
  else
    Except.ok (data, data.length)

/-- Embedding of `do_lock_request` (firewire-request.c:220-264): operand
validation happens before the submit loop; a validation failure aborts
before any packet is submitted. -/
def do_lock_request (tcode : Nat) (data data2 : List Nat) (address gen : Nat)
    (events : List ReqEvent) : Except String (List SendReq × Option Nat) :=
  match do_lock_payload tcode data data2 with
  | Except.error e => Except.error e
  | Except.ok (_, len) =>
    let r := request_loop gen events
    Except.ok (r.1.map (fun g =>
      { tcode := tcode, offset := address, length := len, generation := g }), r.2)

/-! ## firewire-request.c: the two-sided FCP exchange -/

inductive FcpEvent where
  | bus_reset
  | response (rcode : Nat)
  | request (handle : Nat) (payload : List Nat)
  | other
deriving DecidableEq

inductive FcpOutcome where
  /-- Normal loop exit; carries the final `ack_received` and
  `response_received` flags and the `(handle, rcode)` pairs passed to
  `send_response` for inbound requests. -/
  | done (ack_received response_received : Bool) (acks : List (Nat × Nat))
  /-- The early `return` after `print_rcode` on a non-COMPLETE ack. -/
  | remote_error (rcode : Nat)
  /-- Exit with failure on a zero-event poll cycle; carries the flag
  values used by the `timeout (...)` diagnostic. -/
  | fatal_timeout (ack_received response_received : Bool)
  /-- Exit with failure on a bus reset. -/
  | fatal_bus_reset
deriving DecidableEq

/-- Embedding of the event loop of `do_fcp` (firewire-request.c:339-376).
The loop condition is the source's `while (!ack_received &&
!response_received)`; a `FW_CDEV_EVENT_RESPONSE` with non-COMPLETE rcode
returns early, a COMPLETE one sets `ack_received`; a
`FW_CDEV_EVENT_REQUEST` is acknowledged with `RCODE_COMPLETE` via
`send_response`; nothing in the source ever assigns
`response_received = true`. -/
def fcp_loop (ack_received response_received : Bool) (acks : List (Nat × Nat)) :
    List FcpEvent → FcpOutcome
  | [] =>
    if ack_received || response_received then
      FcpOutcome.done ack_received response_received acks
    else FcpOutcome.fatal_timeout ack_received response_received
  | e :: es =>
    if ack_received || response_received then
      FcpOutcome.done ack_received response_received acks
    else
      match e with
      | FcpEvent.bus_reset => FcpOutcome.fatal_bus_reset
      | FcpEvent.response rc =>
        if rc = RCODE_COMPLETE then fcp_loop true response_received acks es
        else FcpOutcome.remote_error rc
      | FcpEvent.request h _ =>
        fcp_loop ack_received response_received (acks ++ [(h, RCODE_COMPLETE)]) es
      | FcpEvent.other => fcp_loop ack_received response_received acks es

/-- Embedding of `do_fcp` (firewire-request.c:310-376): the outbound FCP
command write (quadlet tcode iff the payload is 4 bytes, fixed FCP command
offset) and the event loop started with both flags false. -/
def do_fcp (data : List Nat) (gen : Nat) (events : List FcpEvent) :
    SendReq × FcpOutcome :=
  ({ tcode := if data.length = 4 then TCODE_WRITE_QUADLET_REQUEST
              else TCODE_WRITE_BLOCK_REQUEST,
     offset := 0xfffff0000b00, length := data.length, generation := gen },
   fcp_loop false false [] events)

/-! ## firewire-phy-command.c: the PHY packet transaction loop -/

inductive PhyEvent where
  /-- Event `FW_CDEV_EVENT_BUS_RESET`: fatal inside `_send_packet`. -/
  | bus_reset
  /-- Event `FW_CDEV_EVENT_PHY_PACKET_SENT` carrying `phy_packet.length`
  and `phy_packet.data[0]` (the round-trip tick count when `length >= 4`). -/
  | phy_packet_sent (length : Nat) (d0 : Nat)
  /-- Event `FW_CDEV_EVENT_PHY_PACKET_RECEIVED` carrying
  `phy_packet.data[0]`. -/
  | phy_packet_received (d0 : Nat)
  | other
deriving DecidableEq

/-- Loop state of `_send_packet` (firewire-phy-command.c:278-351).  The C
array `self_ids[3]` together with `self_id_index` is modelled as the list
of words stored so far, in store order: the store
`self_ids[self_id_index++] = response` appends at index `self_ids.length`. -/
structure PhyState where
  wait_for_sent : Bool
  wait_for_response : Bool
  self_ids : List Nat
  response : Nat
  ping_time : Nat
deriving DecidableEq

/-- One iteration of the `_send_packet` event switch
(firewire-phy-command.c:325-347); `none` is the fatal bus-reset exit. -/
def phy_step (response_mask response_bits : Nat) (s : PhyState) (e : PhyEvent) :
    Option PhyState :=
  match e with
  | PhyEvent.bus_reset => none
  | PhyEvent.phy_packet_sent len d0 =>
    some { s with wait_for_sent := false,
                  ping_time := if 4 ≤ len then d0 else s.ping_time }
  | PhyEvent.phy_packet_received d0 =>
    if d0 &&& response_mask = response_bits then
      if d0 &&& 0xc0000000 = 0x80000000 then
        let ids := s.self_ids ++ [d0]
        some { s with response := d0, self_ids := ids,
                      wait_for_response :=
                        if 3 ≤ ids.length ∨ d0 &&& 1 = 0 then false
                        else s.wait_for_response }
      else
        some { s with response := d0, wait_for_response := false }
    else some s
  | PhyEvent.other => some s

/-- The `while (wait_for_sent || wait_for_response)` loop of `_send_packet`
(firewire-phy-command.c:310-348).  Returns the final state and the number
of events consumed; `none` models the fatal timeout (event list exhausted
while still waiting) and the fatal bus-reset exit. -/
def phy_run (response_mask response_bits : Nat) (s : PhyState) :
    List PhyEvent → Option (PhyState × Nat)
  | [] =>
    if s.wait_for_sent || s.wait_for_response then none else some (s, 0)
  | e :: es =>
    if s.wait_for_sent || s.wait_for_response then
      match phy_step response_mask response_bits s e with
      | none => none
      | some s2 =>
        match phy_run response_mask response_bits s2 es with
        | none => none
        | some (t, n) => some (t, n + 1)
    else some (s, 0)

/-- Embedding of `_send_packet` (firewire-phy-command.c:278-351): the pair
of quadlets submitted via `FW_CDEV_IOC_SEND_PHY_PACKET`
(`send_phy_packet.data[0] = quadlet0; send_phy_packet.data[1] = quadlet1`)
and the event loop run from the initial flags
(`wait_for_sent = true`, `wait_for_response = response_mask != 0`). -/
def _send_packet (quadlet0 quadlet1 response_mask response_bits : Nat)
    (events : List PhyEvent) : (Nat × Nat) × Option (PhyState × Nat) :=
  ((quadlet0, quadlet1),
   phy_run response_mask response_bits
     { wait_for_sent := true,
       wait_for_response := decide (response_mask ≠ 0),
       self_ids := [], response := 0, ping_time := 0 } events)

/-- Embedding of `send_packet` (firewire-phy-command.c:353-356): the
symmetric convenience wrapper passing `~quadlet` (32-bit complement) as
the second word. -/
def send_packet (quadlet response_mask response_bits : Nat)
    (events : List PhyEvent) : (Nat × Nat) × Option (PhyState × Nat) :=
  _send_packet quadlet (quadlet ^^^ 0xffffffff) response_mask response_bits events

/-- Embedding of `command_versaphy` (firewire-phy-command.c:684-717): after
validating that the first quadlet has both top bits set, the two
caller-supplied quadlets are passed to `_send_packet` unchanged, with no
response expected. -/
def command_versaphy (q0 q1 : Nat) (events : List PhyEvent) :
    Except String ((Nat × Nat) × Option (PhyState × Nat)) :=
  if q0 &&& 0xc0000000 ≠ 0xc0000000 then
    Except.error "not a VersaPHY packet"
  else
    Except.ok (_send_packet q0 q1 0 0 events)

/-! ## firewire-phy-command.c: Self-ID port decoding in `command_ping` -/

/-- The 2-bit port-state field printed by `print_port`
(firewire-phy-command.c:408-418): index into `{"", "-", "p", "c"}`. -/
def print_port_field (self_id shift : Nat) : Nat :=
  (self_id >>> shift) &&& 3

/-- Port-state character table of `print_port`: none, not connected,
parent, child. -/
def print_port_table : List String := ["", "-", "p", "c"]

/-- The three port fields of the first Self-ID word, printed at shifts
6, 4, 2 (firewire-phy-command.c:466-468). -/
def ping_first_word_ports (w : Nat) : List Nat :=
  [print_port_field w 6, print_port_field w 4, print_port_field w 2]

/-- The port fields read from one chained Self-ID word: shifts 16 down to
2 (firewire-phy-command.c:471-478). -/
def ping_chained_word_ports (w : Nat) : List Nat :=
  [print_port_field w 16, print_port_field w 14, print_port_field w 12,
   print_port_field w 10, print_port_field w 8, print_port_field w 6,
   print_port_field w 4, print_port_field w 2]

/-- The chained-word port decoding of `command_ping`
(firewire-phy-command.c:469-482): guarded by bit 0 of the first word, the
loop visits `self_ids[1]` and `self_ids[2]` in order, reads the port
fields of each visited word, and breaks after the first visited word whose
continuation bit (bit 0) is clear. -/
def ping_chained_ports (w0 w1 w2 : Nat) : List (List Nat) :=
  if w0 &&& 1 = 1 then
    if w1 &&& 1 = 1 then [ping_chained_word_ports w1, ping_chained_word_ports w2]
    else [ping_chained_word_ports w1]
  else []

/-! ## lsfirewirephy.c: the remote PHY register scan -/

/-- The `PHY_REMOTE_ACCESS_PAGED` macro (lsfirewirephy.c:27-28). -/
def PHY_REMOTE_ACCESS_PAGED (phy_id page port reg : Nat) : Nat :=
  (phy_id <<< 24) ||| (5 <<< 18) ||| (page <<< 15) ||| (port <<< 11) ||| (reg <<< 8)

/-- The `PHY_REMOTE_REPLY_PAGED` macro (lsfirewirephy.c:29-30). -/
def PHY_REMOTE_REPLY_PAGED (phy_id page port reg data : Nat) : Nat :=
  (phy_id <<< 24) ||| (7 <<< 18) ||| (page <<< 15) ||| (port <<< 11) ||| (reg <<< 8) ||| data

inductive ScanEvent where
  /-- Event `FW_CDEV_EVENT_BUS_RESET`: fatal (`exit`) inside `list_phy`. -/
  | bus_reset
  /-- Event `FW_CDEV_EVENT_PHY_PACKET_SENT` with its ack rcode. -/
  | phy_packet_sent (rcode : Nat)
  /-- Event `FW_CDEV_EVENT_PHY_PACKET_RECEIVED` with `phy_packet.length`
  and `phy_packet.data[0]`. -/
  | phy_packet_received (length : Nat) (d0 : Nat)
  | other
deriving DecidableEq

inductive ScanOutcome where
  /-- Loop exit with `regs_read == 0xfc`; carries `reg_values[0..5]` as a
  function from array index (register minus 2) to byte. -/
  | completed (reg_values : Nat → Nat)
  /-- A zero-event poll cycle: `list_phy` prints `timeout` and returns
  (`return; /* try next PHY */`), not fatal. -/
  | timed_out
  /-- Exit with failure: bus reset, or a sent ack with non-COMPLETE
  rcode. -/
  | fatal

/-- The `while (regs_read != 0xfc)` accumulation loop of `list_phy`
(lsfirewirephy.c:360-403): a received packet of length 8 whose
`data[0] & 0xffff8000` equals `PHY_REMOTE_REPLY_PAGED(list_phy_id,1,0,0,0)`
contributes register `(data[0] >> 8) & 7` (recorded only when `reg >= 2`)
with byte `data[0] & 0xff`, setting bit `reg` of `regs_read`. -/
def list_phy_loop (list_phy_id : Nat) (regs_read : Nat) (reg_values : Nat → Nat) :
    List ScanEvent → ScanOutcome
  | [] =>
    if regs_read = 0xfc then ScanOutcome.completed reg_values
    else ScanOutcome.timed_out
  | e :: es =>
    if regs_read = 0xfc then ScanOutcome.completed reg_values
    else
      match e with
      | ScanEvent.bus_reset => ScanOutcome.fatal
      | ScanEvent.phy_packet_sent rc =>
        if rc ≠ RCODE_COMPLETE then ScanOutcome.fatal
        else list_phy_loop list_phy_id regs_read reg_values es
      | ScanEvent.phy_packet_received len d0 =>
        if len = 8 ∧ d0 &&& 0xffff8000 = PHY_REMOTE_REPLY_PAGED list_phy_id 1 0 0 0 then
          let reg := (d0 >>> 8) &&& 7
          if 2 ≤ reg then
            list_phy_loop list_phy_id (regs_read ||| (1 <<< reg))
              (fun i => if i = reg - 2 then d0 &&& 0xff else reg_values i) es
          else list_phy_loop list_phy_id regs_read reg_values es
        else list_phy_loop list_phy_id regs_read reg_values es
      | ScanEvent.other => list_phy_loop list_phy_id regs_read reg_values es

/-- Embedding of the scan part of `list_phy` (lsfirewirephy.c:336-418):
six paged remote-access packets (each with its complement as second word)
are submitted for registers 2..7, then the accumulation loop runs with an
empty completion mask. -/
def list_phy (list_phy_id : Nat) (events : List ScanEvent) :
    List (Nat × Nat) × ScanOutcome :=
  ((List.range 6).map (fun i =>
      let d0 := PHY_REMOTE_ACCESS_PAGED list_phy_id 1 0 (2 + i)
      (d0, d0 ^^^ 0xffffffff)),
   list_phy_loop list_phy_id 0 (fun _ => 0) events)

/-- The per-node iteration of `list_all_buses` (lsfirewirephy.c:457-472):
`list_phy` is called for one PHY id after another; a `timed_out` or
`completed` outcome moves on to the next PHY, while a `fatal` outcome
terminates the whole process (modelled as `none`). -/
def scan_all_phys : List (Nat × List ScanEvent) → Option (List (Nat × ScanOutcome))
  | [] => some []
  | (pid, evs) :: rest =>
    match (list_phy pid evs).2 with
    | ScanOutcome.fatal => none
    | ScanOutcome.completed v =>
      (scan_all_phys rest).map (fun l => (pid, ScanOutcome.completed v) :: l)
    | ScanOutcome.timed_out =>
      (scan_all_phys rest).map (fun l => (pid, ScanOutcome.timed_out) :: l)

/-! ## Bit-arithmetic bridging lemmas -/

theorem and_3_eq_mod (x : Nat) : x &&& 3 = x % 4 :=
  Nat.and_pow_two_sub_one_eq_mod x 2

theorem and_7_eq_mod (x : Nat) : x &&& 7 = x % 8 :=
  Nat.and_pow_two_sub_one_eq_mod x 3

theorem and_255_eq_mod (x : Nat) : x &&& 255 = x % 256 :=
  Nat.and_pow_two_sub_one_eq_mod x 8

theorem shiftRight_8_eq_div (x : Nat) : x >>> 8 = x / 256 :=
  Nat.shiftRight_eq_div_pow x 8

/-- Disjoint `lor` is addition: `a * 2^n ||| b = a * 2^n + b` for `b < 2^n`. -/
theorem lor_eq_add_of_lt {a b n : Nat} (hb : b < 2 ^ n) :
    (a * 2 ^ n) ||| b = a * 2 ^ n + b := by
  rw [Nat.mul_comm a (2 ^ n)]
  apply Nat.eq_of_testBit_eq
  intro i
  rw [Nat.testBit_or, Nat.testBit_mul_pow_two_add a hb,
      Nat.testBit_mul_pow_two]
  by_cases h : n ≤ i
  · have hnot : ¬ i < n := Nat.not_lt.mpr h
    simp only [h, hnot, decide_True, Bool.true_and, if_neg hnot]
    rw [Nat.testBit_lt_two_pow (Nat.lt_of_lt_of_le hb (Nat.pow_le_pow_right (by omega) h))]
    simp
  · have hi : i < n := Nat.lt_of_not_le h
    have hnot : ¬ n ≤ i := h
    simp only [hnot, decide_False, Bool.false_and, if_pos hi]
    simp

theorem testBit_one_shiftLeft (r i : Nat) : (1 <<< r).testBit i = decide (i = r) := by
  rw [Nat.shiftLeft_eq, Nat.one_mul, Nat.testBit_two_pow]
  simp [eq_comm]

/-- Masking with `0xffff8000` keeps exactly bits 15..31 of a 32-bit value. -/
theorem and_ffff8000 (x : Nat) (hx : x < 2 ^ 32) :
    x &&& 0xffff8000 = x / 2 ^ 15 * 2 ^ 15 := by
  apply Nat.eq_of_testBit_eq
  intro i
  rw [Nat.testBit_and]
  by_cases h32 : i < 32
  · by_cases h15 : i < 15
    · have hm : Nat.testBit 0xffff8000 i = false := by
        interval_cases i <;> decide
      have hr : (x / 2 ^ 15 * 2 ^ 15).testBit i = false := by
        rw [Nat.mul_comm, Nat.testBit_mul_pow_two]
        simp [Nat.not_le.mpr h15]
      rw [hm, hr, Bool.and_false]
    · have h15h : 15 ≤ i := Nat.not_lt.mp h15
      have hm : Nat.testBit 0xffff8000 i = true := by
        interval_cases i <;> decide
      rw [hm, Bool.and_true, Nat.mul_comm, Nat.testBit_mul_pow_two]
      simp only [ge_iff_le, h15h, decide_True, Bool.true_and]
      rw [← Nat.shiftRight_eq_div_pow, Nat.testBit_shiftRight]
      congr 1
      omega
  · have h32h : 32 ≤ i := Nat.not_lt.mp h32
    have hpow : (2 : Nat) ^ 32 ≤ 2 ^ i := Nat.pow_le_pow_right (by omega) h32h
    have hm : Nat.testBit 0xffff8000 i = false :=
      Nat.testBit_lt_two_pow (Nat.lt_of_lt_of_le (by norm_num) hpow)
    have hr : (x / 2 ^ 15 * 2 ^ 15).testBit i = false :=
      Nat.testBit_lt_two_pow
        (Nat.lt_of_le_of_lt (Nat.div_mul_le_self x _) (Nat.lt_of_lt_of_le hx hpow))
    rw [hm, hr, Bool.and_false]

/-- The reply pattern compared against in `list_phy`, in closed arithmetic
form. -/
theorem reply_pattern_eq (pid : Nat) :
    PHY_REMOTE_REPLY_PAGED pid 1 0 0 0 = pid * 16777216 + 1867776 := by
  have s24 : pid <<< 24 = pid * 2 ^ 24 := Nat.shiftLeft_eq pid 24
  have h1 : pid * 2 ^ 24 ||| 7 <<< 18 = pid * 2 ^ 24 + 1835008 := by
    have h7 : (7 : Nat) <<< 18 = 1835008 := by decide
    rw [h7]
    exact lor_eq_add_of_lt (a := pid) (n := 24) (by norm_num)
  have h2 : pid * 2 ^ 24 + 1835008 ||| 1 <<< 15 = pid * 2 ^ 24 + 1867776 := by
    have hs : (1 : Nat) <<< 15 = 32768 := by decide
    have hf : pid * 2 ^ 24 + 1835008 = (pid * 256 + 28) * 2 ^ 16 := by ring
    rw [hs, hf, lor_eq_add_of_lt (a := pid * 256 + 28) (n := 16) (by norm_num)]
    ring
  unfold PHY_REMOTE_REPLY_PAGED
  rw [Nat.zero_shiftLeft, Nat.zero_shiftLeft, Nat.or_zero, Nat.or_zero,
      Nat.or_zero, s24, h1, h2]
  norm_num

theorem xor_lt_two_pow {x y n : Nat} (hx : x < 2 ^ n) (hy : y < 2 ^ n) :
    x ^^^ y < 2 ^ n :=
  Nat.bitwise_lt_two_pow hx hy

/-! ## Claim theorems -/

/-- Claim C8: for every async read or write request, the transaction code
is selected from payload length and offset alignment: length 4 with a
4-byte-aligned offset selects the quadlet read/write tcode, and any other
combination (length 4 at offset 0x3, or any length different from 4)
selects the block read/write tcode. -/
theorem C8_tcode_selection :
    (∀ len addr : Nat,
      (do_read_tcode len addr = TCODE_READ_QUADLET_REQUEST ↔ len = 4 ∧ addr % 4 = 0) ∧
      (do_write_tcode len addr = TCODE_WRITE_QUADLET_REQUEST ↔ len = 4 ∧ addr % 4 = 0) ∧
      (¬(len = 4 ∧ addr % 4 = 0) →
        do_read_tcode len addr = TCODE_READ_BLOCK_REQUEST ∧
        do_write_tcode len addr = TCODE_WRITE_BLOCK_REQUEST)) ∧
    do_read_tcode 4 3 = TCODE_READ_BLOCK_REQUEST ∧
    do_write_tcode 4 3 = TCODE_WRITE_BLOCK_REQUEST ∧
    do_read_tcode 4 8 = TCODE_READ_QUADLET_REQUEST ∧
    do_write_tcode 4 8 = TCODE_WRITE_QUADLET_REQUEST ∧
    do_read_tcode 6 0 = TCODE_READ_BLOCK_REQUEST ∧
    do_write_tcode 6 0 = TCODE_WRITE_BLOCK_REQUEST := by
  refine ⟨?_, by decide, by decide, by decide, by decide, by decide, by decide⟩
  intro len addr
  have h3 : addr &&& 3 = addr % 4 := and_3_eq_mod addr
  by_cases hc : len = 4 ∧ addr % 4 = 0
  · simp [do_read_tcode, do_write_tcode, h3, hc, TCODE_READ_QUADLET_REQUEST,
      TCODE_READ_BLOCK_REQUEST, TCODE_WRITE_QUADLET_REQUEST, TCODE_WRITE_BLOCK_REQUEST]
  · simp [do_read_tcode, do_write_tcode, h3, hc, TCODE_READ_QUADLET_REQUEST,
      TCODE_READ_BLOCK_REQUEST, TCODE_WRITE_QUADLET_REQUEST, TCODE_WRITE_BLOCK_REQUEST]

theorem C8_tcode_selection_witness :
    do_read_tcode 4 3 = TCODE_READ_BLOCK_REQUEST ∧
    do_write_tcode 4 3 = TCODE_WRITE_BLOCK_REQUEST :=
  (C8_tcode_selection.1 4 3).2.2 (by decide)

/-- Claim C3: the symmetric PHY send `send_packet` submits the pair
`(d0, d1)` with `d1` the 32-bit bitwise complement of the quadlet, while
`command_versaphy` submits exactly the two caller-supplied quadlets with
no complement transform. -/
theorem C3_phy_complement :
    (∀ quadlet response_mask response_bits : Nat, ∀ evs : List PhyEvent,
      (send_packet quadlet response_mask response_bits evs).1 =
        (quadlet, quadlet ^^^ 0xffffffff)) ∧
    (∀ q : Nat, q < 2 ^ 32 →
      (q ^^^ 0xffffffff) < 2 ^ 32 ∧
      ∀ i : Nat, i < 32 → (q ^^^ 0xffffffff).testBit i = !(q.testBit i)) ∧
    (∀ q0 q1 : Nat, ∀ evs : List PhyEvent, q0 &&& 0xc0000000 = 0xc0000000 →
      command_versaphy q0 q1 evs = Except.ok (_send_packet q0 q1 0 0 evs) ∧
      (_send_packet q0 q1 0 0 evs).1 = (q0, q1)) := by
  refine ⟨fun _ _ _ _ => rfl, ?_, ?_⟩
  · intro q hq
    refine ⟨xor_lt_two_pow hq (by norm_num), ?_⟩
    intro i hi
    rw [Nat.testBit_xor]
    have hm : Nat.testBit 0xffffffff i = true := by
      rw [(show (0xffffffff : Nat) = 2 ^ 32 - 1 by norm_num),
          Nat.testBit_two_pow_sub_one]
      simp [hi]
    rw [hm, Bool.xor_true]
  · intro q0 q1 evs h
    refine ⟨?_, rfl⟩
    simp [command_versaphy, h]

theorem C3_phy_complement_witness :
    ((0x12345678 : Nat) ^^^ 0xffffffff) < 2 ^ 32 ∧
    ((0x12345678 : Nat) ^^^ 0xffffffff).testBit 3 =
      !((0x12345678 : Nat).testBit 3) ∧
    command_versaphy 0xc1234567 0x00000005 [] =
      Except.ok (_send_packet 0xc1234567 0x00000005 0 0 []) :=
  ⟨(C3_phy_complement.2.1 0x12345678 (by norm_num)).1,
   (C3_phy_complement.2.1 0x12345678 (by norm_num)).2 3 (by norm_num),
   (C3_phy_complement.2.2 0xc1234567 0x00000005 [] (by decide)).1⟩

/-- Claim C1 (code bug): the `do_fcp` event loop is supposed to report
success only after both the COMPLETE ack for the command write and an
inbound request to the FCP-response range were received, but the source's
loop condition is `while (!ack_received && !response_received)` and
`response_received` is never assigned, so the loop exits successfully on
the ack alone: the first conjunct evaluates the loop on a stream carrying
only the ack; the second shows `response_received` is still false even
when an inbound request was received and acknowledged.  The last two
conjuncts record the parts of the claim the code does satisfy: a
zero-event poll cycle and a non-COMPLETE ack rcode abort without retry. -/
theorem C1_fcp_ack_alone_succeeds :
    (do_fcp [1, 2, 3, 4] 9 [FcpEvent.response RCODE_COMPLETE]).2 =
      FcpOutcome.done true false [] ∧
    (do_fcp [0x11, 0x22] 3
        [FcpEvent.request 5 [0xaa], FcpEvent.response RCODE_COMPLETE]).2 =
      FcpOutcome.done true false [(5, RCODE_COMPLETE)] ∧
    (do_fcp [1, 2, 3, 4] 9 []).2 = FcpOutcome.fatal_timeout false false ∧
    (do_fcp [1, 2, 3, 4] 9 [FcpEvent.response RCODE_BUSY]).2 =
      FcpOutcome.remote_error RCODE_BUSY := by
  refine ⟨rfl, rfl, rfl, ?_⟩
  decide

/-- Claim C5 counterexample: a chained Self-ID word contributes eight
2-bit port fields in `command_ping`, not four as the claim states. -/
theorem C5_counterexample :
    ping_chained_ports 0x80000001 0 0 = [ping_chained_word_ports 0] ∧
    (ping_chained_word_ports 0).length = 8 ∧
    (ping_chained_word_ports 0).length ≠ 4 := by
  refine ⟨?_, rfl, by decide⟩
  decide

/-- Claim C5 (amended): when decoding an accumulated Self-ID chain, each
chained word contributes exactly eight 2-bit port-state fields (values
indexing the table none / not-connected / parent / child), read from the
most significant applicable bit pair (shift 16) down to shift 2, and
decoding of chained words stops at the first word whose continuation bit
(bit 0) is clear. -/
theorem C5_chained_port_decoding :
    (∀ w : Nat, (ping_chained_word_ports w).length = 8) ∧
    (∀ w i : Nat, ∀ h : i < (ping_chained_word_ports w).length,
      (ping_chained_word_ports w).get ⟨i, h⟩ = (w >>> (16 - 2 * i)) &&& 3) ∧
    (∀ w shift : Nat, print_port_field w shift < 4 ∧
      print_port_field w shift < print_port_table.length) ∧
    (∀ w0 w1 w2 : Nat, w0 &&& 1 = 0 → ping_chained_ports w0 w1 w2 = []) ∧
    (∀ w0 w1 w2 : Nat, w0 &&& 1 = 1 → w1 &&& 1 = 0 →
      ping_chained_ports w0 w1 w2 = [ping_chained_word_ports w1]) ∧
    (∀ w0 w1 w2 : Nat, w0 &&& 1 = 1 → w1 &&& 1 = 1 →
      ping_chained_ports w0 w1 w2 =
        [ping_chained_word_ports w1, ping_chained_word_ports w2]) := by
  refine ⟨fun _ => rfl, ?_, ?_, ?_, ?_, ?_⟩
  · intro w i h
    have h8 : i < 8 := h
    interval_cases i <;> rfl
  · intro w shift
    have : print_port_field w shift < 4 := by
      unfold print_port_field
      rw [and_3_eq_mod]
      exact Nat.mod_lt _ (by norm_num)
    exact ⟨this, this⟩
  · intro w0 w1 w2 h0
    simp [ping_chained_ports, h0]
  · intro w0 w1 w2 h0 h1
    simp [ping_chained_ports, h0, h1]
  · intro w0 w1 w2 h0 h1
    simp [ping_chained_ports, h0, h1]

theorem C5_chained_port_decoding_witness :
    ping_chained_ports 2 5 7 = [] ∧
    ping_chained_ports 1 2 9 = [ping_chained_word_ports 2] ∧
    ping_chained_ports 1 3 9 =
      [ping_chained_word_ports 3, ping_chained_word_ports 9] ∧
    (ping_chained_word_ports 6).get ⟨2, by decide⟩ = (6 >>> 12) &&& 3 :=
  ⟨C5_chained_port_decoding.2.2.2.1 2 5 7 (by decide),
   C5_chained_port_decoding.2.2.2.2.1 1 2 9 (by decide) (by decide),
   C5_chained_port_decoding.2.2.2.2.2 1 3 9 (by decide) (by decide),
   C5_chained_port_decoding.2.1 6 2 (by decide)⟩

/-- Claim C7: lock encoding fails with the operand-width error, before any
packet is submitted, exactly when an operand's byte width is not 4 or 8 or
the two operands of a dual-operand kind differ in width; a width-valid
dual-operand encoding yields the payload operand1 immediately followed by
operand2 with length twice the operand width, and single-operand kinds
(`TCODE_LOCK_FETCH_ADD`, `TCODE_LOCK_LITTLE_ADD`) send just the one
operand. -/
theorem C7_lock_operand_encoding :
    (∀ tcode : Nat, ∀ data data2 : List Nat,
      (∃ e, do_lock_payload tcode data data2 = Except.error e) ↔
        ((data.length ≠ 4 ∧ data.length ≠ 8) ∨
         ((tcode ≠ TCODE_LOCK_FETCH_ADD ∧ tcode ≠ TCODE_LOCK_LITTLE_ADD) ∧
            (data2.length ≠ 4 ∧ data2.length ≠ 8)) ∨
         ((tcode ≠ TCODE_LOCK_FETCH_ADD ∧ tcode ≠ TCODE_LOCK_LITTLE_ADD) ∧
            data.length ≠ data2.length))) ∧
    (∀ tcode : Nat, ∀ data data2 : List Nat,
      (tcode ≠ TCODE_LOCK_FETCH_ADD ∧ tcode ≠ TCODE_LOCK_LITTLE_ADD) →
      (data.length = 4 ∨ data.length = 8) → data2.length = data.length →
      do_lock_payload tcode data data2 = Except.ok (data ++ data2, data.length * 2) ∧
      (data ++ data2).length = data.length * 2) ∧
    (∀ tcode : Nat, ∀ data data2 : List Nat,
      (tcode = TCODE_LOCK_FETCH_ADD ∨ tcode = TCODE_LOCK_LITTLE_ADD) →
      (data.length = 4 ∨ data.length = 8) →
      do_lock_payload tcode data data2 = Except.ok (data, data.length)) ∧
    (∀ tcode : Nat, ∀ data data2 : List Nat, ∀ address gen : Nat,
      ∀ evs : List ReqEvent, ∀ e : String,
      do_lock_payload tcode data data2 = Except.error e →
      do_lock_request tcode data data2 address gen evs = Except.error e) ∧
    do_lock_payload TCODE_LOCK_COMPARE_SWAP [0, 0, 0, 1] [0, 0, 0, 2] =
      Except.ok ([0, 0, 0, 1, 0, 0, 0, 2], 8) := by
  refine ⟨?_, ?_, ?_, ?_, rfl⟩
  · intro tcode data data2
    simp only [do_lock_payload]
    split_ifs with h1 h2 h3
    · exact ⟨fun _ => by tauto, fun _ => ⟨_, rfl⟩⟩
    · exact ⟨fun _ => by tauto, fun _ => ⟨_, rfl⟩⟩
    · constructor
      · rintro ⟨e, he⟩
        simp at he
      · intro hr
        exfalso
        tauto
    · constructor
      · rintro ⟨e, he⟩
        simp at he
      · intro hr
        exfalso
        tauto
  · intro tcode data data2 hH hw he
    have he2 : data.length = data2.length := he.symm
    have hA : ¬((data.length ≠ 4 ∧ data.length ≠ 8) ∨
        ((tcode ≠ TCODE_LOCK_FETCH_ADD ∧ tcode ≠ TCODE_LOCK_LITTLE_ADD) ∧
          (data2.length ≠ 4 ∧ data2.length ≠ 8))) := by
      rw [he]
      tauto
    have hB : ¬((tcode ≠ TCODE_LOCK_FETCH_ADD ∧ tcode ≠ TCODE_LOCK_LITTLE_ADD) ∧
        data.length ≠ data2.length) := by
      tauto
    constructor
    · simp only [do_lock_payload]
      rw [if_neg hA, if_neg hB, if_pos hH]
    · rw [List.length_append]
      omega
  · intro tcode data data2 hS hw
    have hH : ¬(tcode ≠ TCODE_LOCK_FETCH_ADD ∧ tcode ≠ TCODE_LOCK_LITTLE_ADD) := by
      tauto
    have hA : ¬((data.length ≠ 4 ∧ data.length ≠ 8) ∨
        ((tcode ≠ TCODE_LOCK_FETCH_ADD ∧ tcode ≠ TCODE_LOCK_LITTLE_ADD) ∧
          (data2.length ≠ 4 ∧ data2.length ≠ 8))) := by
      tauto
    have hB : ¬((tcode ≠ TCODE_LOCK_FETCH_ADD ∧ tcode ≠ TCODE_LOCK_LITTLE_ADD) ∧
        data.length ≠ data2.length) := by
      tauto
    simp only [do_lock_payload]
    rw [if_neg hA, if_neg hB, if_neg hH]
  · intro tcode data data2 address gen evs e h
    simp [do_lock_request, h]

theorem C7_lock_operand_encoding_witness :
    do_lock_payload TCODE_LOCK_FETCH_ADD [1, 2, 3, 4] [9] =
      Except.ok ([1, 2, 3, 4], 4) ∧
    do_lock_payload TCODE_LOCK_MASK_SWAP [1, 2, 3, 4] [5, 6, 7, 8] =
      Except.ok ([1, 2, 3, 4, 5, 6, 7, 8], 8) ∧
    (∃ e, do_lock_payload TCODE_LOCK_COMPARE_SWAP [1, 2, 3] [5, 6, 7, 8] =
      Except.error e) :=
  ⟨C7_lock_operand_encoding.2.2.1 TCODE_LOCK_FETCH_ADD [1, 2, 3, 4] [9]
      (Or.inl rfl) (Or.inl (by decide)),
   (C7_lock_operand_encoding.2.1 TCODE_LOCK_MASK_SWAP [1, 2, 3, 4] [5, 6, 7, 8]
      (by decide) (Or.inl (by decide)) (by decide)).1,
   (C7_lock_operand_encoding.1 TCODE_LOCK_COMPARE_SWAP [1, 2, 3] [5, 6, 7, 8]).2
      (Or.inl (by decide))⟩

/-! ## Helper lemmas about the retry loop -/

theorem request_loop_none {gen : Nat} {events : List ReqEvent}
    (h : wait_for_response gen events = none) :
    request_loop gen events = ([gen], none) := by
  rw [request_loop, h]

theorem request_loop_gen {gen g2 : Nat} {events rest : List ReqEvent}
    (h : wait_for_response gen events = some (g2, RCODE_GENERATION, rest)) :
    request_loop gen events =
      (gen :: (request_loop g2 rest).1, (request_loop g2 rest).2) := by
  rw [request_loop, h]
  simp

theorem request_loop_stop {gen g2 rc : Nat} {events rest : List ReqEvent}
    (h : wait_for_response gen events = some (g2, rc, rest))
    (hrc : rc ≠ RCODE_GENERATION) :
    request_loop gen events = ([gen], some rc) := by
  rw [request_loop, h]
  simp [hrc]

/-- On a stream of `k` GENERATION responses followed by a non-GENERATION
response, the retry loop performs exactly `k + 1` submissions, all stamped
with the unchanged generation, and returns the first non-GENERATION
rcode. -/
theorem request_loop_replicate_gen (gen k rc : Nat) (p : List Nat)
    (rest : List ReqEvent) (hrc : rc ≠ RCODE_GENERATION) :
    request_loop gen
      (List.replicate k (ReqEvent.response RCODE_GENERATION p) ++
        ReqEvent.response rc p :: rest) =
      (List.replicate (k + 1) gen, some rc) := by
  induction k generalizing gen with
  | zero =>
    have h : wait_for_response gen (ReqEvent.response rc p :: rest) =
        some (gen, rc, rest) := rfl
    simp [request_loop_stop h hrc, List.replicate]
  | succ k ih =>
    have h : wait_for_response gen
        (ReqEvent.response RCODE_GENERATION p ::
          (List.replicate k (ReqEvent.response RCODE_GENERATION p) ++
            ReqEvent.response rc p :: rest)) =
        some (gen, RCODE_GENERATION,
          List.replicate k (ReqEvent.response RCODE_GENERATION p) ++
            ReqEvent.response rc p :: rest) := rfl
    rw [List.replicate_succ, List.cons_append, request_loop_gen h, ih gen]
    simp [List.replicate_succ]

/-- Flag for the event kinds that terminate `wait_for_response`. -/
def is_response_event : ReqEvent → Bool
  | ReqEvent.response _ _ => true
  | _ => false

/-- Generation update performed by one iteration of `wait_for_response`:
a `FW_CDEV_EVENT_BUS_RESET` event overwrites the cached generation, every
other event leaves it unchanged. -/
def update_generation (gen : Nat) (e : ReqEvent) : Nat :=
  match e with
  | ReqEvent.bus_reset g => g
  | _ => gen

/-- Running `wait_for_response` on a response-free prefix folds the generation
updates of the prefix and returns at the first response event. -/
theorem wait_for_response_append (gen rc : Nat) (p : List Nat)
    (pre post : List ReqEvent) (hpre : ∀ e ∈ pre, is_response_event e = false) :
    wait_for_response gen (pre ++ ReqEvent.response rc p :: post) =
      some (List.foldl update_generation gen pre, rc, post) := by
  induction pre generalizing gen with
  | nil => rfl
  | cons e pre ih =>
    cases e with
    | bus_reset g =>
      rw [List.cons_append]
      show wait_for_response g (pre ++ ReqEvent.response rc p :: post) = _
      rw [ih g (fun e he => hpre e (List.mem_cons_of_mem _ he))]
      rfl
    | response rc2 p2 =>
      have := hpre (ReqEvent.response rc2 p2) (List.mem_cons_self _ _)
      simp [is_response_event] at this
    | other =>
      rw [List.cons_append]
      show wait_for_response gen (pre ++ ReqEvent.response rc p :: post) = _
      rw [ih gen (fun e he => hpre e (List.mem_cons_of_mem _ he))]
      rfl

/-- Claim C2: the retry loop resubmits exactly on rcode GENERATION and
stops at the first non-GENERATION rcode, which is reported: a stream of
`{GENERATION, GENERATION, COMPLETE}` yields exactly 3 submissions and a
final COMPLETE, and a stream starting with `BUSY` yields exactly 1
submission with BUSY reported and no retry, for read, write and lock
requests alike (all three share the same `do ... while` loop). -/
theorem C2_generation_retry :
    (∀ gen k rc : Nat, ∀ p : List Nat, ∀ rest : List ReqEvent,
      rc ≠ RCODE_GENERATION →
      request_loop gen
        (List.replicate k (ReqEvent.response RCODE_GENERATION p) ++
          ReqEvent.response rc p :: rest) =
        (List.replicate (k + 1) gen, some rc)) ∧
    (∀ gen len addr : Nat, ∀ p : List Nat,
      (do_read len addr gen
        [ReqEvent.response RCODE_GENERATION p, ReqEvent.response RCODE_GENERATION p,
         ReqEvent.response RCODE_COMPLETE p]).1.length = 3 ∧
      (do_read len addr gen
        [ReqEvent.response RCODE_GENERATION p, ReqEvent.response RCODE_GENERATION p,
         ReqEvent.response RCODE_COMPLETE p]).2 = some RCODE_COMPLETE) ∧
    (∀ gen len addr : Nat, ∀ p : List Nat,
      (do_read len addr gen [ReqEvent.response RCODE_BUSY p]).1.length = 1 ∧
      (do_read len addr gen [ReqEvent.response RCODE_BUSY p]).2 =
        some RCODE_BUSY) ∧
    (∀ gen addr : Nat, ∀ p : List Nat,
      (do_write_request 6 addr gen [ReqEvent.response RCODE_BUSY p]).1.length = 1 ∧
      (do_write_request 6 addr gen [ReqEvent.response RCODE_BUSY p]).2 =
        some RCODE_BUSY) ∧
    (∀ gen addr : Nat, ∀ p : List Nat,
      do_lock_request TCODE_LOCK_COMPARE_SWAP [0, 0, 0, 1] [0, 0, 0, 2] addr gen
        [ReqEvent.response RCODE_BUSY p] =
        Except.ok ([{ tcode := TCODE_LOCK_COMPARE_SWAP, offset := addr,
                      length := 8, generation := gen }], some RCODE_BUSY)) := by
  have hbusy : RCODE_BUSY ≠ RCODE_GENERATION := by decide
  have hcomp : RCODE_COMPLETE ≠ RCODE_GENERATION := by decide
  refine ⟨request_loop_replicate_gen, ?_, ?_, ?_, ?_⟩
  · intro gen len addr p
    have h := request_loop_replicate_gen gen 2 RCODE_COMPLETE p [] hcomp
    simp only [List.replicate, List.cons_append, List.nil_append] at h
    constructor
    · simp [do_read, h]
    · simp [do_read, h]
  · intro gen len addr p
    have h := request_loop_replicate_gen gen 0 RCODE_BUSY p [] hbusy
    simp only [List.replicate, List.nil_append] at h
    constructor
    · simp [do_read, h]
    · simp [do_read, h]
  · intro gen addr p
    have h := request_loop_replicate_gen gen 0 RCODE_BUSY p [] hbusy
    simp only [List.replicate, List.nil_append] at h
    constructor
    · simp [do_write_request, h]
    · simp [do_write_request, h]
  · intro gen addr p
    have h := request_loop_replicate_gen gen 0 RCODE_BUSY p [] hbusy
    simp only [List.replicate, List.nil_append] at h
    have hp : do_lock_payload TCODE_LOCK_COMPARE_SWAP [0, 0, 0, 1] [0, 0, 0, 2] =
        Except.ok ([0, 0, 0, 1, 0, 0, 0, 2], 8) := rfl
    simp [do_lock_request, hp, h]

theorem C2_generation_retry_witness :
    request_loop 7
      (List.replicate 2 (ReqEvent.response RCODE_GENERATION []) ++
        [ReqEvent.response RCODE_COMPLETE []]) =
      (List.replicate 3 7, some RCODE_COMPLETE) :=
  C2_generation_retry.1 7 2 RCODE_COMPLETE [] [] (by decide)

/-- Claim C6: while waiting for an async response, every observed
bus-reset event updates the cached generation (even though it is not the
awaited event) and the wait continues; a retry after a GENERATION rcode
stamps the resubmission with the updated generation. -/
theorem C6_bus_reset_updates_generation :
    (∀ gen g2 : Nat, ∀ es : List ReqEvent,
      wait_for_response gen (ReqEvent.bus_reset g2 :: es) =
        wait_for_response g2 es) ∧
    (∀ gen rc : Nat, ∀ p : List Nat, ∀ pre post : List ReqEvent,
      (∀ e ∈ pre, is_response_event e = false) →
      wait_for_response gen (pre ++ ReqEvent.response rc p :: post) =
        some (List.foldl update_generation gen pre, rc, post)) ∧
    (∀ gen : Nat, ∀ p : List Nat, ∀ pre post : List ReqEvent,
      (∀ e ∈ pre, is_response_event e = false) →
      request_loop gen (pre ++ ReqEvent.response RCODE_GENERATION p :: post) =
        (gen :: (request_loop (List.foldl update_generation gen pre) post).1,
         (request_loop (List.foldl update_generation gen pre) post).2)) := by
  refine ⟨fun _ _ _ => rfl, wait_for_response_append, ?_⟩
  intro gen p pre post hpre
  exact request_loop_gen (wait_for_response_append gen RCODE_GENERATION p pre post hpre)

theorem C6_bus_reset_updates_generation_witness :
    wait_for_response 1
      [ReqEvent.bus_reset 5, ReqEvent.other, ReqEvent.response 0 []] =
      some (5, 0, []) := by
  have h := C6_bus_reset_updates_generation.2.1 1 0 []
    [ReqEvent.bus_reset 5, ReqEvent.other] [] (by decide)
  simpa [update_generation] using h

/-- Claim C4: matching PHY-receive words with Self-ID top bits `0b10` are
appended to the chain in arrival order, and the loop keeps waiting for a
response exactly while bit 0 of the last appended word is set and fewer
than 3 words have been accumulated; a chain with continuation bits
`[1,1,0]` is consumed as exactly 3 words after the sent ack and then the
loop stops; a chain `[0]` is consumed as exactly 1 word; a matching word
that is not a Self-ID pattern is accepted as the final response and stops
the wait immediately. -/
theorem C4_self_id_accumulation :
    (∀ mask bits : Nat, ∀ s : PhyState, ∀ w : Nat,
      s.wait_for_response = true → w &&& mask = bits →
      w &&& 0xc0000000 = 0x80000000 →
      phy_step mask bits s (PhyEvent.phy_packet_received w) =
        some { s with
                response := w, self_ids := s.self_ids ++ [w],
                wait_for_response :=
                  decide (s.self_ids.length + 1 < 3) &&
                    decide (w &&& 1 = 1) }) ∧
    (∀ mask bits q0 q1 w1 w2 w3 lenS d0S : Nat, ∀ rest : List PhyEvent,
      mask ≠ 0 →
      w1 &&& mask = bits → w2 &&& mask = bits → w3 &&& mask = bits →
      w1 &&& 0xc0000000 = 0x80000000 → w2 &&& 0xc0000000 = 0x80000000 →
      w3 &&& 0xc0000000 = 0x80000000 →
      w1 &&& 1 = 1 → w2 &&& 1 = 1 → w3 &&& 1 = 0 →
      (_send_packet q0 q1 mask bits
        (PhyEvent.phy_packet_sent lenS d0S :: PhyEvent.phy_packet_received w1 ::
         PhyEvent.phy_packet_received w2 :: PhyEvent.phy_packet_received w3 ::
         rest)).2 =
        some ({ wait_for_sent := false, wait_for_response := false,
                self_ids := [w1, w2, w3], response := w3,
                ping_time := if 4 ≤ lenS then d0S else 0 }, 4)) ∧
    (∀ mask bits q0 q1 w1 lenS d0S : Nat, ∀ rest : List PhyEvent,
      mask ≠ 0 → w1 &&& mask = bits → w1 &&& 0xc0000000 = 0x80000000 →
      w1 &&& 1 = 0 →
      (_send_packet q0 q1 mask bits
        (PhyEvent.phy_packet_sent lenS d0S :: PhyEvent.phy_packet_received w1 ::
         rest)).2 =
        some ({ wait_for_sent := false, wait_for_response := false,
                self_ids := [w1], response := w1,
                ping_time := if 4 ≤ lenS then d0S else 0 }, 2)) ∧
    (∀ mask bits q0 q1 w lenS d0S : Nat, ∀ rest : List PhyEvent,
      mask ≠ 0 → w &&& mask = bits → w &&& 0xc0000000 ≠ 0x80000000 →
      (_send_packet q0 q1 mask bits
        (PhyEvent.phy_packet_sent lenS d0S :: PhyEvent.phy_packet_received w ::
         rest)).2 =
        some ({ wait_for_sent := false, wait_for_response := false,
                self_ids := [], response := w,
                ping_time := if 4 ≤ lenS then d0S else 0 }, 2)) := by
  refine ⟨?_, ?_, ?_, ?_⟩
  · intro mask bits s w hw hm hsid
    have hb : w &&& 1 = 0 ∨ w &&& 1 = 1 := by rw [Nat.and_one_is_mod]; omega
    simp only [phy_step, hm, hsid, if_pos, List.length_append, List.length_cons,
      List.length_nil]
    rcases hb with hb | hb
    · simp [hb]
    · simp only [hb]
      by_cases hlen : s.self_ids.length + 1 < 3
      · have : ¬(3 ≤ s.self_ids.length + 1 ∨ (1 : Nat) = 0) := by omega
        simp [this, hlen, hw]
        omega
      · have : (3 ≤ s.self_ids.length + 1 ∨ (1 : Nat) = 0) := by omega
        simp [this, hlen]
        intro hcon
        exfalso
        omega
  · intro mask bits q0 q1 w1 w2 w3 lenS d0S rest hmask hm1 hm2 hm3 hs1 hs2 hs3
      hb1 hb2 hb3
    simp only [_send_packet, phy_run, phy_step, hmask, hm1, hm2, hm3, hs1, hs2,
      hs3, hb1, hb2, hb3]
    simp [hmask, hm1, hm2, hm3, hs1, hs2, hs3, hb1, hb2, hb3]
    cases rest with
    | nil => simp [phy_run]
    | cons e es => simp [phy_run]
  · intro mask bits q0 q1 w1 lenS d0S rest hmask hm1 hs1 hb1
    simp only [_send_packet, phy_run, phy_step, hmask, hm1, hs1, hb1]
    simp [hmask, hm1, hs1, hb1]
    cases rest with
    | nil => simp [phy_run]
    | cons e es => simp [phy_run]
  · intro mask bits q0 q1 w lenS d0S rest hmask hm hs
    simp only [_send_packet, phy_run, phy_step, hmask, hm, hs]
    simp [hmask, hm, hs]
    cases rest with
    | nil => simp [phy_run]
    | cons e es => simp [phy_run]

theorem C4_self_id_accumulation_witness :
    (_send_packet 3 5 0xc0000000 0x80000000
      [PhyEvent.phy_packet_sent 8 77,
       PhyEvent.phy_packet_received 0x80000001,
       PhyEvent.phy_packet_received 0x80000003,
       PhyEvent.phy_packet_received 0x80000000,
       PhyEvent.phy_packet_received 0x80000001]).2 =
      some ({ wait_for_sent := false, wait_for_response := false,
              self_ids := [0x80000001, 0x80000003, 0x80000000],
              response := 0x80000000, ping_time := 77 }, 4) ∧
    (_send_packet 3 5 0x40000000 0
      [PhyEvent.phy_packet_sent 2 77,
       PhyEvent.phy_packet_received 0x00000007]).2 =
      some ({ wait_for_sent := false, wait_for_response := false,
              self_ids := [], response := 0x00000007, ping_time := 0 }, 2) := by
  constructor
  · have h := C4_self_id_accumulation.2.1 0xc0000000 0x80000000 3 5
      0x80000001 0x80000003 0x80000000 8 77 [PhyEvent.phy_packet_received 0x80000001]
      (by decide) (by decide) (by decide) (by decide) (by decide) (by decide)
      (by decide) (by decide) (by decide) (by decide)
    simpa using h
  · have h := C4_self_id_accumulation.2.2.2 0x40000000 0 3 5 0x00000007 2 77 []
      (by decide) (by decide) (by decide)
    simpa using h

/-- Invariant for the Self-ID store bound: once the sent ack has been
processed (`wait_for_sent = false`), the loop runs only while
`wait_for_response` is true, and while it is true fewer than 3 words have
been stored, so the chain never grows past 3. -/
theorem phy_run_self_ids_bound {mask bits : Nat} :
    ∀ {evs : List PhyEvent} {s t : PhyState} {n : Nat},
      s.wait_for_sent = false → s.self_ids.length ≤ 3 →
      (s.wait_for_response = true → s.self_ids.length < 3) →
      phy_run mask bits s evs = some (t, n) → t.self_ids.length ≤ 3 := by
  intro evs
  induction evs with
  | nil =>
    intro s t n hsent hle hlt hrun
    simp only [phy_run, hsent, Bool.false_or] at hrun
    cases hw : s.wait_for_response with
    | true => rw [hw] at hrun; simp at hrun
    | false =>
      rw [hw] at hrun
      simp at hrun
      rw [← hrun.1]
      exact hle
  | cons e es ih =>
    intro s t n hsent hle hlt hrun
    simp only [phy_run, hsent, Bool.false_or] at hrun
    cases hw : s.wait_for_response with
    | false =>
      rw [hw] at hrun
      simp at hrun
      rw [← hrun.1]
      exact hle
    | true =>
      rw [hw] at hrun
      simp only [if_pos] at hrun
      have hlen := hlt hw
      cases e with
      | bus_reset => simp [phy_step] at hrun
      | phy_packet_sent len d0 =>
        simp only [phy_step] at hrun
        cases hrec : phy_run mask bits
            { s with
               wait_for_sent := false,
               ping_time := if 4 ≤ len then d0 else s.ping_time } es with
        | none => rw [hrec] at hrun; simp at hrun
        | some out =>
          rw [hrec] at hrun
          simp at hrun
          rcases hrun with ⟨ht, _⟩
          rw [← ht]
          exact ih rfl (by simpa using hle) (fun h2 => by simpa using hlt (by simpa using h2)) hrec
      | phy_packet_received d0 =>
        simp only [phy_step] at hrun
        by_cases hm : d0 &&& mask = bits
        · rw [if_pos hm] at hrun
          by_cases hsid : d0 &&& 0xc0000000 = 0x80000000
          · rw [if_pos hsid] at hrun
            simp only [] at hrun
            set s2 : PhyState :=
              { s with
                 response := d0, self_ids := s.self_ids ++ [d0],
                 wait_for_response :=
                   if 3 ≤ (s.self_ids ++ [d0]).length ∨ d0 &&& 1 = 0 then false
                   else s.wait_for_response } with hs2
            cases hrec : phy_run mask bits s2 es with
            | none => rw [hrec] at hrun; simp at hrun
            | some out =>
              rw [hrec] at hrun
              simp at hrun
              rcases hrun with ⟨ht, _⟩
              rw [← ht]
              refine ih (s := s2) hsent ?_ ?_ hrec
              · simp only [hs2, List.length_append, List.length_cons,
                  List.length_nil]
                omega
              · intro h2
                simp only [hs2] at h2
                simp only [hs2, List.length_append, List.length_cons,
                  List.length_nil]
                by_cases hc : 3 ≤ (s.self_ids ++ [d0]).length ∨ d0 &&& 1 = 0
                · rw [if_pos hc] at h2
                  exact absurd h2 (by simp)
                · simp only [List.length_append, List.length_cons,
                    List.length_nil] at hc
                  omega
          · rw [if_neg hsid] at hrun
            simp only [] at hrun
            cases hrec : phy_run mask bits
                { s with response := d0, wait_for_response := false } es with
            | none => rw [hrec] at hrun; simp at hrun
            | some out =>
              rw [hrec] at hrun
              simp at hrun
              rcases hrun with ⟨ht, _⟩
              rw [← ht]
              exact ih (s := { s with response := d0, wait_for_response := false })
                hsent (by simpa using hle) (fun h2 => by simp at h2) hrec
        · rw [if_neg hm] at hrun
          simp only [] at hrun
          cases hrec : phy_run mask bits s es with
          | none => rw [hrec] at hrun; simp at hrun
          | some out =>
            rw [hrec] at hrun
            simp at hrun
            rcases hrun with ⟨ht, _⟩
            rw [← ht]
            exact ih hsent hle hlt hrec
      | other =>
        simp only [phy_step] at hrun
        cases hrec : phy_run mask bits s es with
        | none => rw [hrec] at hrun; simp at hrun
        | some out =>
          rw [hrec] at hrun
          simp at hrun
          rcases hrun with ⟨ht, _⟩
          rw [← ht]
          exact ih hsent hle hlt hrec

/-- Claim C10 counterexample: the PHY-receive branch of `_send_packet`
does not test `wait_for_response` before storing, so when four matching
Self-ID words with the continuation bit set are delivered before the
`PHY_PACKET_SENT` event, a fourth store happens: the chain reaches length
4, i.e. the store `self_ids[self_id_index++]` ran with index 3, one past
the end of the 3-element array. -/
theorem C10_counterexample :
    (_send_packet 0x00180000 0xffe7ffff 0xc0000000 0x80000000
      [PhyEvent.phy_packet_received 0x80000001,
       PhyEvent.phy_packet_received 0x80000001,
       PhyEvent.phy_packet_received 0x80000001,
       PhyEvent.phy_packet_received 0x80000001,
       PhyEvent.phy_packet_sent 8 0]).2 =
      some ({ wait_for_sent := false, wait_for_response := false,
              self_ids := [0x80000001, 0x80000001, 0x80000001, 0x80000001],
              response := 0x80000001, ping_time := 0 }, 5) ∧
    ([0x80000001, 0x80000001, 0x80000001, 0x80000001] : List Nat).length = 4 := by
  exact ⟨by decide, rfl⟩

/-- Claim C10 (amended): in the PHY transaction loop, provided the sent
acknowledgment is the first event delivered (the kernel's delivery order,
since a remote reply can only follow the completed transmission), every
store into the 3-element Self-ID array uses an index strictly less
than 3: the accumulated chain never exceeds 3 words, because once the
sent flag is cleared the loop runs only while the response wait is
active, and the wait is cleared at the third store or at a word with a
clear continuation bit. -/
theorem C10_self_id_store_bound :
    ∀ mask bits q0 q1 lenS d0S : Nat, ∀ rest : List PhyEvent,
      ∀ t : PhyState, ∀ n : Nat,
      (_send_packet q0 q1 mask bits
        (PhyEvent.phy_packet_sent lenS d0S :: rest)).2 = some (t, n) →
      t.self_ids.length ≤ 3 := by
  intro mask bits q0 q1 lenS d0S rest t n h
  simp only [_send_packet, phy_run, phy_step] at h
  cases hrec : phy_run mask bits
      { wait_for_sent := false,
        wait_for_response := decide (mask ≠ 0),
        self_ids := [], response := 0,
        ping_time := if 4 ≤ lenS then d0S else 0 } rest with
  | none => rw [hrec] at h; simp at h
  | some out =>
    rw [hrec] at h
    simp at h
    rcases h with ⟨ht, _⟩
    rw [← ht]
    exact phy_run_self_ids_bound rfl (by simp) (fun _ => by simp) hrec

theorem C10_self_id_store_bound_witness :
    ({ wait_for_sent := false, wait_for_response := false,
       self_ids := [0x80000001, 0x80000003, 0x80000000],
       response := 0x80000000, ping_time := 0 } : PhyState).self_ids.length ≤ 3 :=
  C10_self_id_store_bound 0xc0000000 0x80000000 1 2 2 9
    [PhyEvent.phy_packet_received 0x80000001,
     PhyEvent.phy_packet_received 0x80000003,
     PhyEvent.phy_packet_received 0x80000000,
     PhyEvent.phy_packet_received 0x80000001]
    { wait_for_sent := false, wait_for_response := false,
      self_ids := [0x80000001, 0x80000003, 0x80000000],
      response := 0x80000000, ping_time := 0 } 4 (by decide)

/-! ## Claim C9 support: reply events and completion-mask reasoning -/

/-- A matching remote-reply PHY packet event for register `r` carrying
`byte`, as `list_phy` would receive it: an 8-byte
`FW_CDEV_EVENT_PHY_PACKET_RECEIVED` whose first quadlet is
`PHY_REMOTE_REPLY_PAGED(pid, 1, 0, r, byte)` in arithmetic form. -/
def mk_reply_event (pid r byte : Nat) : ScanEvent :=
  ScanEvent.phy_packet_received 8 (pid * 16777216 + 1867776 + r * 256 + byte)

theorem mk_reply_fields (pid r byte : Nat) (hpid : pid < 64) (hr : r < 8)
    (hb : byte < 256) :
    (pid * 16777216 + 1867776 + r * 256 + byte) &&& 0xffff8000 =
      PHY_REMOTE_REPLY_PAGED pid 1 0 0 0 ∧
    ((pid * 16777216 + 1867776 + r * 256 + byte) >>> 8) &&& 7 = r ∧
    (pid * 16777216 + 1867776 + r * 256 + byte) &&& 255 = byte := by
  set d0 := pid * 16777216 + 1867776 + r * 256 + byte with hd0
  have hlt : d0 < 2 ^ 32 := by
    rw [hd0]
    have : pid * 16777216 ≤ 63 * 16777216 := by
      exact Nat.mul_le_mul_right _ (by omega)
    norm_num at this ⊢
    omega
  refine ⟨?_, ?_, ?_⟩
  · rw [and_ffff8000 d0 hlt, reply_pattern_eq, hd0]
    have h15 : (2 : Nat) ^ 15 = 32768 := by norm_num
    rw [h15]
    omega
  · rw [shiftRight_8_eq_div, and_7_eq_mod, hd0]
    omega
  · rw [and_255_eq_mod, hd0]
    omega

theorem testBit_fc (i : Nat) :
    Nat.testBit 0xfc i = decide (2 ≤ i ∧ i ≤ 7) := by
  by_cases h8 : i < 8
  · interval_cases i <;> decide
  · have h8h : 8 ≤ i := Nat.not_lt.mp h8
    have : Nat.testBit 0xfc i = false :=
      Nat.testBit_lt_two_pow
        (Nat.lt_of_lt_of_le (by norm_num)
          (Nat.pow_le_pow_right (by omega) h8h))
    rw [this]
    have : ¬(2 ≤ i ∧ i ≤ 7) := by omega
    simp [this]

/-- One accumulation step of `list_phy`'s loop on a matching reply whose
register field is at least 2. -/
theorem list_phy_loop_reply_step (pid m : Nat) (vals : Nat → Nat)
    (len d0 : Nat) (es : List ScanEvent) (hm : m ≠ 0xfc) (hlen : len = 8)
    (hmask : d0 &&& 0xffff8000 = PHY_REMOTE_REPLY_PAGED pid 1 0 0 0)
    (hreg : 2 ≤ (d0 >>> 8) &&& 7) :
    list_phy_loop pid m vals (ScanEvent.phy_packet_received len d0 :: es) =
      list_phy_loop pid (m ||| (1 <<< ((d0 >>> 8) &&& 7)))
        (fun i => if i = ((d0 >>> 8) &&& 7) - 2 then d0 &&& 255 else vals i)
        es := by
  subst hlen
  simp only [list_phy_loop, if_neg hm]
  rw [if_pos ⟨trivial, hmask⟩]
  rw [if_pos hreg]

/-- Core completion argument for the register scan: replies for a set of
registers completing `[2..7]` (in any order) drive the completion mask to
`0xfc` and record every register byte. -/
theorem list_phy_loop_covers (pid : Nat) (hpid : pid < 64) (b : Nat → Nat)
    (hb : ∀ r, b r < 256) :
    ∀ (rs done : List Nat) (m : Nat) (vals : Nat → Nat),
      (∀ i, m.testBit i = decide (i ∈ done)) →
      ((rs ++ done).Perm [2, 3, 4, 5, 6, 7]) →
      (∀ r ∈ done, vals (r - 2) = b r) →
      ∃ w, list_phy_loop pid m vals
             (rs.map (fun r => mk_reply_event pid r (b r))) =
           ScanOutcome.completed w ∧
           ∀ r, 2 ≤ r → r ≤ 7 → w (r - 2) = b r := by
  intro rs
  induction rs with
  | nil =>
    intro done m vals hm hperm hvals
    have hmem : ∀ i : Nat, (i ∈ done) ↔ (2 ≤ i ∧ i ≤ 7) := by
      intro i
      have h1 : (i ∈ done) ↔ (i ∈ [2, 3, 4, 5, 6, 7]) := by
        constructor
        · intro hc; exact hperm.mem_iff.mp (by simpa using hc)
        · intro hc; simpa using hperm.mem_iff.mpr hc
      rw [h1]
      simp
      omega
    have hmfc : m = 0xfc := by
      apply Nat.eq_of_testBit_eq
      intro i
      rw [hm i, testBit_fc]
      by_cases hi : 2 ≤ i ∧ i ≤ 7
      · simp [hi, (hmem i).mpr hi]
      · have : i ∉ done := fun hc => hi ((hmem i).mp hc)
        simp [hi, this]
    subst hmfc
    refine ⟨vals, by simp [list_phy_loop], ?_⟩
    intro r h2 h7
    exact hvals r ((hmem r).mpr ⟨h2, h7⟩)
  | cons r rs ih =>
    intro done m vals hm hperm hvals
    have hrmem : r ∈ [2, 3, 4, 5, 6, 7] := hperm.mem_iff.mp (by simp)
    have hr2 : 2 ≤ r ∧ r ≤ 7 := by
      simp at hrmem
      omega
    have hnodup : ((r :: rs) ++ done).Nodup :=
      (List.Perm.nodup_iff hperm).mpr (by decide)
    rw [List.cons_append, List.nodup_cons] at hnodup
    have hrnotdone : r ∉ done :=
      fun hc => hnodup.1 (List.mem_append_right _ hc)
    have hmne : m ≠ 0xfc := by
      intro hc
      have hbit := hm r
      rw [hc, testBit_fc] at hbit
      simp [hr2, hrnotdone] at hbit
    have hfields := mk_reply_fields pid r (b r) hpid (by omega) (hb r)
    rw [List.map_cons]
    rw [(by rfl : mk_reply_event pid r (b r) = ScanEvent.phy_packet_received 8
          (pid * 16777216 + 1867776 + r * 256 + b r))]
    rw [list_phy_loop_reply_step pid m vals 8 _ _ hmne rfl hfields.1
          (by rw [hfields.2.1]; omega)]
    rw [hfields.2.1, hfields.2.2]
    have hm2 : ∀ i : Nat,
        (m ||| (1 <<< r)).testBit i = decide (i ∈ r :: done) := by
      intro i
      rw [Nat.testBit_or, testBit_one_shiftLeft, hm i]
      by_cases hir : i = r
      · simp [hir]
      · by_cases hid : i ∈ done
        · simp [hir, hid]
        · simp [hir, hid]
    have hperm2 : ((rs ++ r :: done).Perm [2, 3, 4, 5, 6, 7]) := by
      refine List.Perm.trans ?_ hperm
      rw [List.cons_append]
      exact List.perm_middle
    have hvals2 : ∀ x ∈ r :: done,
        (fun i => if i = r - 2 then b r else vals i) (x - 2) = b x := by
      intro x hx
      rcases List.mem_cons.mp hx with hx | hx
      · subst hx
        simp
      · have hxmem : x ∈ [2, 3, 4, 5, 6, 7] :=
          hperm.mem_iff.mp (List.mem_append_right _ hx)
        have hx2 : 2 ≤ x ∧ x ≤ 7 := by
          simp at hxmem
          omega
        have hxr : x ≠ r := fun hc => hrnotdone (hc ▸ hx)
        have : x - 2 ≠ r - 2 := by omega
        simp only [this, if_neg]
        exact hvals x hx
    exact ih (r :: done) (m ||| (1 <<< r))
      (fun i => if i = r - 2 then b r else vals i) hm2 hperm2 hvals2

/-- Coverage direction for the register scan: a completed run implies a
matching reply was processed (or already recorded in the mask) for every
register 2..7. -/
theorem list_phy_loop_completed_regs (pid : Nat) :
    ∀ (evs : List ScanEvent) (m : Nat) (vals w : Nat → Nat),
      list_phy_loop pid m vals evs = ScanOutcome.completed w →
      ∀ r, 2 ≤ r → r ≤ 7 →
        m.testBit r = true ∨
        ∃ len d0, ScanEvent.phy_packet_received len d0 ∈ evs ∧ len = 8 ∧
          d0 &&& 0xffff8000 = PHY_REMOTE_REPLY_PAGED pid 1 0 0 0 ∧
          (d0 >>> 8) &&& 7 = r := by
  intro evs
  induction evs with
  | nil =>
    intro m vals w hrun r h2 h7
    left
    by_cases hm : m = 0xfc
    · rw [hm, testBit_fc]
      simp [h2, h7]
    · simp [list_phy_loop, hm] at hrun
  | cons e es ih =>
    intro m vals w hrun r h2 h7
    by_cases hm : m = 0xfc
    · left
      rw [hm, testBit_fc]
      simp [h2, h7]
    · cases e with
      | bus_reset => simp [list_phy_loop, hm] at hrun
      | phy_packet_sent rc =>
        simp only [list_phy_loop, if_neg hm] at hrun
        by_cases hrc : rc ≠ RCODE_COMPLETE
        · rw [if_pos hrc] at hrun
          simp at hrun
        · rw [if_neg hrc] at hrun
          rcases ih _ _ _ hrun r h2 h7 with h | ⟨len2, d02, hmem, hrest⟩
          · left; exact h
          · right; exact ⟨len2, d02, List.mem_cons_of_mem _ hmem, hrest⟩
      | phy_packet_received len d0 =>
        simp only [list_phy_loop, if_neg hm] at hrun
        by_cases hc : len = 8 ∧
            d0 &&& 0xffff8000 = PHY_REMOTE_REPLY_PAGED pid 1 0 0 0
        · rw [if_pos hc] at hrun
          by_cases hreg : 2 ≤ (d0 >>> 8) &&& 7
          · rw [if_pos hreg] at hrun
            rcases ih _ _ _ hrun r h2 h7 with h | ⟨len2, d02, hmem, hrest⟩
            · by_cases hrr : r = (d0 >>> 8) &&& 7
              · right
                exact ⟨len, d0, List.mem_cons_self _ _, hc.1, hc.2, hrr.symm⟩
              · left
                rw [Nat.testBit_or, testBit_one_shiftLeft] at h
                simpa [hrr] using h
            · right; exact ⟨len2, d02, List.mem_cons_of_mem _ hmem, hrest⟩
          · rw [if_neg hreg] at hrun
            rcases ih _ _ _ hrun r h2 h7 with h | ⟨len2, d02, hmem, hrest⟩
            · left; exact h
            · right; exact ⟨len2, d02, List.mem_cons_of_mem _ hmem, hrest⟩
        · rw [if_neg hc] at hrun
          rcases ih _ _ _ hrun r h2 h7 with h | ⟨len2, d02, hmem, hrest⟩
          · left; exact h
          · right; exact ⟨len2, d02, List.mem_cons_of_mem _ hmem, hrest⟩
      | other =>
        simp only [list_phy_loop, if_neg hm] at hrun
        rcases ih _ _ _ hrun r h2 h7 with h | ⟨len2, d02, hmem, hrest⟩
        · left; exact h
        · right; exact ⟨len2, d02, List.mem_cons_of_mem _ hmem, hrest⟩

/-- Claim C9: the remote PHY register scan for one node terminates
successfully exactly when the completion mask reaches `0xfc`: matching
remote-reply packets for registers 2..7, delivered in any arrival order,
complete the scan and all six register bytes are reported; conversely a
completed scan implies a matching reply was received for every register
2..7; and a zero-event poll cycle yields the non-fatal `timed_out`
outcome that aborts only that node's scan, so scanning of further nodes
continues (while a fatal outcome would terminate the whole run). -/
theorem C9_phy_register_scan :
    (∀ pid : Nat, pid < 64 → ∀ b : Nat → Nat, (∀ r, b r < 256) →
      ∀ rs : List Nat, rs.Perm [2, 3, 4, 5, 6, 7] →
      ∃ w, (list_phy pid (rs.map (fun r => mk_reply_event pid r (b r)))).2 =
             ScanOutcome.completed w ∧
           ∀ r, 2 ≤ r → r ≤ 7 → w (r - 2) = b r) ∧
    (∀ pid : Nat, ∀ evs : List ScanEvent, ∀ w : Nat → Nat,
      (list_phy pid evs).2 = ScanOutcome.completed w →
      ∀ r, 2 ≤ r → r ≤ 7 →
        ∃ len d0, ScanEvent.phy_packet_received len d0 ∈ evs ∧ len = 8 ∧
          d0 &&& 0xffff8000 = PHY_REMOTE_REPLY_PAGED pid 1 0 0 0 ∧
          (d0 >>> 8) &&& 7 = r) ∧
    (∀ pid : Nat, ∀ m : Nat, ∀ vals : Nat → Nat, m ≠ 0xfc →
      list_phy_loop pid m vals [] = ScanOutcome.timed_out) ∧
    (∀ pid : Nat, ∀ evs : List ScanEvent,
      ∀ rest : List (Nat × List ScanEvent),
      (list_phy pid evs).2 = ScanOutcome.timed_out →
      scan_all_phys ((pid, evs) :: rest) =
        (scan_all_phys rest).map
          (fun l => (pid, ScanOutcome.timed_out) :: l)) ∧
    (∀ pid : Nat, ∀ evs : List ScanEvent,
      ∀ rest : List (Nat × List ScanEvent),
      (list_phy pid evs).2 = ScanOutcome.fatal →
      scan_all_phys ((pid, evs) :: rest) = none) := by
  refine ⟨?_, ?_, ?_, ?_, ?_⟩
  · intro pid hpid b hb rs hperm
    have h := list_phy_loop_covers pid hpid b hb rs [] 0 (fun _ => 0)
      (by intro i; simp [Nat.zero_testBit]) (by simpa using hperm)
      (by intro r hr; simp at hr)
    simpa [list_phy] using h
  · intro pid evs w hrun r h2 h7
    have h := list_phy_loop_completed_regs pid evs 0 (fun _ => 0) w
      (by simpa [list_phy] using hrun) r h2 h7
    rcases h with h | h
    · rw [Nat.zero_testBit] at h
      exact absurd h (by simp)
    · exact h
  · intro pid m vals hm
    simp [list_phy_loop, hm]
  · intro pid evs rest h
    simp [scan_all_phys, h]
  · intro pid evs rest h
    simp [scan_all_phys, h]

theorem C9_phy_register_scan_witness :
    (∃ w, (list_phy 1
        ([3, 2, 7, 6, 5, 4].map
          (fun r => mk_reply_event 1 r ((fun x => x % 256) r)))).2 =
          ScanOutcome.completed w ∧
        ∀ r, 2 ≤ r → r ≤ 7 → w (r - 2) = (fun x => x % 256) r) ∧
    scan_all_phys [(2, []), (3, [])] =
      (scan_all_phys [(3, [])]).map
        (fun l => (2, ScanOutcome.timed_out) :: l) :=
  ⟨C9_phy_register_scan.1 1 (by norm_num) (fun x => x % 256)
      (fun x => Nat.mod_lt x (by norm_num)) [3, 2, 7, 6, 5, 4] (by decide),
   C9_phy_register_scan.2.2.2.1 2 [] [(3, [])] rfl⟩
